import Mathlib

/-!
Shallow embedding of the RabbitBrowser interactive-element detection engine.

The embedding models:
* the document as a list of element records in document (pre-order) order,
  each identified by its tree path (`List Nat`);
* the candidate scan `getClickableElements` of
  `src/highlighting/elementDetector.ts` (selector collection, cursor scan,
  tree-walker order, `processElement`, prioritisation sort, 100-cap);
* the highlighter state of `src/highlighting/highlighter.ts`
  (`processedElements`, `highlightedElements`, text-block registries,
  `highlightClickableElement`, `refreshClickableElements`,
  `findAndHighlightTextBlocks`);
* the collection pass `collectElementData`
  (`filterDuplicateElements`, `findFormElements`, record projection);
* the consent-button marking of `handleConsentButtons` and the legacy
  consent filter of the older detector file (the unnamed source file that
  matches `dist/highlighting/elementDetector.js`);
* the bounded wait loop of `RabbitBrowser.go`.
-/

set_option maxRecDepth 100000

namespace RabbitBrowser

/-! ## String helpers (JS `String.prototype.includes`, `toLowerCase`) -/

/-- Character-list prefix test. -/
def listPref : List Char → List Char → Bool
  | [], _ => true
  | _ :: _, [] => false
  | a :: n, b :: h => a == b && listPref n h

/-- Character-list infix test. -/
def listInfix (n : List Char) : List Char → Bool
  | [] => listPref n []
  | c :: h => listPref n (c :: h) || listInfix n h

/-- JS `hay.includes(needle)`. -/
def strContains (hay needle : String) : Bool :=
  listInfix needle.data hay.data

/-- JS `s.toLowerCase()` (ASCII as used by the source's lexicons). -/
def lc (s : String) : String :=
  ⟨s.data.map Char.toLower⟩

/-- Splitting at single spaces (JS `className.split(" ")`). -/
def splitAuxChars : List Char → List Char → List String
  | [], acc => [⟨acc.reverse⟩]
  | c :: rest, acc =>
    if c == ' ' then ⟨acc.reverse⟩ :: splitAuxChars rest []
    else splitAuxChars rest (c :: acc)

def splitSpaces (s : String) : List String := splitAuxChars s.data []

def isWSChar (c : Char) : Bool :=
  c == ' ' || c == '\t' || c == '\n' || c == '\r'

/-- JS `s.trim()`. -/
def trimStr (s : String) : String :=
  ⟨((s.data.dropWhile isWSChar).reverse.dropWhile isWSChar).reverse⟩

/-! ## Document model

A document is the list of elements strictly below `document.body`, in
document (pre-order) order.  An element is identified by its path of
child indices from the body.  Styles carry the computed values the source
reads (`cursor`, `z-index`) plus a `styleThrows` flag modelling elements
whose `getComputedStyle` call throws. -/

structure FElem where
  path : List Nat
  tag : String
  idAttr : String
  className : String
  typeAttr : Option String
  role : Option String
  ariaLabel : Option String
  ceAttr : Option String
  hasOnClickA : Bool
  hasOnMouseDownA : Bool
  hasOnMouseUpA : Bool
  width : Nat
  height : Nat
  top : Int
  left : Int
  zIndex : Int
  cursor : String
  styleThrows : Bool
  ownText : String
  childNodesCount : Nat
  firstChildIsText : Bool
deriving Repr, DecidableEq, Inhabited

/-- Default field values: an unstyled, text-free element. -/
def baseElem : FElem where
  path := []
  tag := "div"
  idAttr := ""
  className := ""
  typeAttr := none
  role := none
  ariaLabel := none
  ceAttr := none
  hasOnClickA := false
  hasOnMouseDownA := false
  hasOnMouseUpA := false
  width := 100
  height := 20
  top := 0
  left := 0
  zIndex := 0
  cursor := "auto"
  styleThrows := false
  ownText := ""
  childNodesCount := 0
  firstChildIsText := false

abbrev Doc := List FElem

/-- Lookup of an element by its path. -/
def findElem (d : Doc) (p : List Nat) : Option FElem :=
  d.find? (fun e => e.path == p)

/-- Does path `a` strictly contain path `b` (proper ancestor)? -/
def pathAbove (a b : List Nat) : Bool :=
  a.isPrefixOf b && a != b

/-- Number of element children (JS `element.children.length`). -/
def childElemCount (d : Doc) (p : List Nat) : Nat :=
  (d.filter (fun e => pathAbove p e.path && e.path.length == p.length + 1)).length

/-- Number of element descendants (JS `element.querySelectorAll("*").length`). -/
def subtreeElemCount (d : Doc) (p : List Nat) : Nat :=
  (d.filter (fun e => pathAbove p e.path)).length

/-- JS `element.textContent`: concatenation of all text under the element,
in document order. -/
def textContent (d : Doc) (p : List Nat) : String :=
  String.join (((d.filter (fun e => p.isPrefixOf e.path))).map (fun e => e.ownText))

/-- The parent element, when it is itself inside the document (the body,
which is every depth-1 element's parent, is outside `d` and yields `none`;
every tag/role test the source applies to it is false there, matching the
`<body>` element). -/
def parentElem (d : Doc) (p : List Nat) : Option FElem :=
  findElem d p.dropLast

/-- Class tokens of an element (JS `classList`). -/
def classTokens (e : FElem) : List String :=
  splitSpaces e.className

/-! ## Convergence controller (`RabbitBrowser.go` wait loop)

The loop is driven by the fixed interval table; `counts k` models the
element count returned by the `k`-th call to `collectElementData`. -/

def checkIntervals : List Nat := [300, 500, 700, 1000, 1500]

structure GoCfg where
  waitTime : Nat
  minElementsRequired : Nat
  earlyReturn : Bool
deriving Repr, DecidableEq

/-- One pass over the interval table.  State: collect counter `k`, elapsed
wait `t`, last element count `e`.  Returns the state after the loop. -/
def goLoop (cfg : GoCfg) (counts : Nat → Nat) :
    List Nat → Nat → Nat → Nat → Nat × Nat × Nat
  | [], k, t, e => (k, t, e)
  | i :: rest, k, t, e =>
    if cfg.waitTime ≤ t then (k, t, e)
    else
      let t' := t + i
      let e' := counts k
      if cfg.earlyReturn && decide (cfg.minElementsRequired ≤ e') then
        (k + 1, t', e')
      else
        goLoop cfg counts rest (k + 1) t' e'

/-- The final remaining-budget wait after the interval loop. -/
def finishGo (cfg : GoCfg) (counts : Nat → Nat) : Nat × Nat × Nat → Nat × Nat
  | (k, t, e) =>
    if e < cfg.minElementsRequired ∧ t < cfg.waitTime then
      if 0 < cfg.waitTime - t then (t + (cfg.waitTime - t), counts k) else (t, e)
    else (t, e)

/-- The whole wait sequence of `go`: the interval loop followed by the
final remaining-budget wait.  Returns (total wait performed, final count). -/
def goRun (cfg : GoCfg) (counts : Nat → Nat) : Nat × Nat :=
  finishGo cfg counts (goLoop cfg counts checkIntervals 0 0 0)

/-! ## Highlighter state (`initializeHighlighter`)

`processed` models `window.processedElements`, `highlighted` models
`window.highlightedElements` (element path together with the numeric label
passed to `highlightClickableElement`); likewise for text blocks. -/

structure HState where
  processed : List (List Nat)
  highlighted : List (List Nat × Nat)
  processedText : List (List Nat)
  highlightedText : List (List Nat × Nat)
deriving Repr, DecidableEq

def emptyHState : HState := ⟨[], [], [], []⟩

/-- JS `window.highlightClickableElement(element, index)`. -/
def highlightClickableElement (p : List Nat) (idx : Nat) (s : HState) : HState :=
  if p ∈ s.processed then s
  else
    { s with
      processed := s.processed ++ [p]
      highlighted := s.highlighted ++ [(p, idx)] }

/-- The registration pass shared by `refreshClickableElements` and the
form-element loop of `collectElementData`: each element is highlighted with
index `window.highlightedElements.length + i + 1`, where the length is read
again at every iteration. -/
def passGo : List (List Nat) → HState → Nat → HState
  | [], s, _ => s
  | p :: rest, s, i =>
    passGo rest (highlightClickableElement p (s.highlighted.length + i + 1) s) (i + 1)

/-- JS `window.highlightTextBlock(element, index)`. -/
def highlightTextBlock (p : List Nat) (idx : Nat) (s : HState) : HState :=
  if p ∈ s.processedText then s
  else
    { s with
      processedText := s.processedText ++ [p]
      highlightedText := s.highlightedText ++ [(p, idx)] }

/-- The text-block highlighting loop of `findAndHighlightTextBlocks`. -/
def textPassGo : List (List Nat) → HState → Nat → HState
  | [], s, _ => s
  | p :: rest, s, i =>
    textPassGo rest (highlightTextBlock p (s.highlightedText.length + i + 1) s) (i + 1)

/-! ## Element detector (`initializeElementDetector` / `getClickableElements`) -/

structure DetectorOpts where
  focusOnConsent : Bool := false
  includeFormInputs : Bool := true
  highlightAllText : Bool := true
deriving Repr, DecidableEq

/-- Deduplication keeping first occurrences (JS `[...new Set(list)]`,
element identity being the node reference, i.e. the path). -/
def dedupFAux : List FElem → List (List Nat) → List FElem
  | [], _ => []
  | e :: rest, seen =>
    if e.path ∈ seen then dedupFAux rest seen
    else e :: dedupFAux rest (seen ++ [e.path])

def dedupF (l : List FElem) : List FElem := dedupFAux l []

/-- The `interactiveSelectors` list: each entry is the matching predicate of
one CSS selector, in source order. -/
def interactiveSelectorMatchers (includeFormInputs : Bool) : List (FElem → Bool) :=
  [fun e => e.tag == "a",
   fun e => e.tag == "button",
   fun e => e.role == some "button",
   fun e => e.tag == "input" && e.typeAttr == some "button",
   fun e => e.tag == "input" && e.typeAttr == some "submit",
   fun e => e.tag == "input" && e.typeAttr == some "reset",
   fun e => e.tag == "input" && e.typeAttr == some "checkbox",
   fun e => e.tag == "input" && e.typeAttr == some "radio",
   fun e => e.tag == "summary"] ++
  (if includeFormInputs then
    [fun e => e.tag == "input" && e.typeAttr != some "hidden",
     fun e => e.tag == "select",
     fun e => e.tag == "textarea",
     fun e => e.tag == "label",
     fun e => (classTokens e).contains "form-control"]
   else [])

/-- Candidate collection of `processElementsInDOMOrder`: the selector
queries followed by the cursor-pointer scan (whose style probe is wrapped
in try/catch, so throwing elements are skipped). -/
def potentialElements (o : DetectorOpts) (d : Doc) : List FElem :=
  ((interactiveSelectorMatchers o.includeFormInputs).flatMap (fun m => d.filter m)) ++
    d.filter (fun e => !e.styleThrows && e.cursor == "pointer")

/-- The TreeWalker pass: candidates revisited in document order. -/
def walkOrder (o : DetectorOpts) (d : Doc) : List FElem :=
  d.filter (fun e => (dedupF (potentialElements o d)).any (fun u => u.path == e.path))

structure ScanState where
  processedParents : List (List Nat)
  clickable : List FElem
deriving Repr, DecidableEq

/-- JS `processElement` of the element detector. -/
def processElement (d : Doc) (o : DetectorOpts) (st : ScanState) (e : FElem) : ScanState :=
  if e.width == 0 || e.height == 0 then st
  else if st.processedParents.any (fun q => pathAbove q e.path) then st
  else if (e.tag == "span" || e.tag == "div" || e.tag == "p")
      && childElemCount d e.path == 0
      && (match parentElem d e.path with
          | some pe => pe.tag == "button" || pe.tag == "a" || pe.role == some "button"
          | none => false) then st
  else
    let stdClick :=
      e.tag == "a" || e.tag == "button" || e.tag == "select" || e.tag == "textarea"
      || e.role == some "button" || e.role == some "link" || e.role == some "checkbox"
      || e.role == some "radio" || e.role == some "menuitem" || e.role == some "tab"
      || (e.tag == "input" && (match e.typeAttr with
          | some t => ["button", "submit", "reset", "checkbox", "radio"].contains t
          | none => false))
    let isContainer :=
      stdClick && (e.tag == "button" || e.tag == "a" || e.role == some "button")
    let formClick :=
      (e.tag == "input" && (match e.typeAttr with
        | some t => ["text", "email", "password", "search", "tel", "url", "number",
            "date", "datetime-local", "month", "week", "time", "color", "file",
            "range"].contains t
        | none => false))
      || e.tag == "select" || e.tag == "textarea" || e.ceAttr == some "true"
    let uiClick :=
      if e.styleThrows then false
      else e.cursor == "pointer" || e.hasOnClickA || e.hasOnMouseDownA || e.hasOnMouseUpA
    let isClickable := stdClick || (o.includeFormInputs && formClick) || uiClick
    if isClickable then
      { processedParents :=
          if isContainer then st.processedParents ++ [e.path] else st.processedParents
        clickable := st.clickable ++ [e] }
    else st

/-- The z-index read of the prioritisation sort (`parseInt(...) || 0`,
with a try/catch falling back to 0). -/
def zOf (e : FElem) : Int := if e.styleThrows then 0 else e.zIndex

/-- The sort comparator of `getClickableElements`. -/
def cmpJS (a b : FElem) : Int :=
  if zOf a != zOf b then zOf b - zOf a
  else if 10 < (a.top - b.top).natAbs then a.top - b.top
  else a.left - b.left

/-- Stable insertion used to model the (ES2019, stable) `Array.sort`. -/
def insSorted (e : FElem) : List FElem → List FElem
  | [] => [e]
  | x :: xs => if cmpJS x e ≤ 0 then x :: insSorted e xs else e :: x :: xs

def sortJS : List FElem → List FElem
  | [] => []
  | x :: xs => insSorted x (sortJS xs)

/-- JS `window.getClickableElements()`: scan, dedup, prioritise,
cap at 100. -/
def getClickableElements (o : DetectorOpts) (d : Doc) : List FElem :=
  (sortJS (dedupF ((walkOrder o d).foldl (processElement d o) ⟨[], []⟩).clickable)).take 100

/-! ## Text blocks (`findAndHighlightTextBlocks`) -/

abbrev SelM := Doc → FElem → Bool

def tagIs (t : String) : SelM := fun _ e => e.tag == t

def hasAncP (pred : FElem → Bool) : SelM := fun d e =>
  d.any (fun a => pathAbove a.path e.path && pred a)

def parentIsP (pred : FElem → Bool) : SelM := fun d e =>
  match parentElem d e.path with
  | some pe => pred pe
  | none => false

def hasClassTok (c : String) : SelM := fun _ e => (classTokens e).contains c

def descTag (anc : FElem → Bool) (t : String) : SelM := fun d e =>
  e.tag == t && hasAncP anc d e

def childTag (ptag t : String) : SelM := fun d e =>
  e.tag == t && parentIsP (fun pe => pe.tag == ptag) d e

/-- The text selector list of the `highlightAllText` branch, in source
order. -/
def textSelAll : List SelM :=
  [tagIs "h1", tagIs "h2", tagIs "h3", tagIs "h4", tagIs "h5", tagIs "h6",
   tagIs "p",
   descTag (fun a => a.tag == "article") "p",
   descTag (fun a => a.tag == "main") "p",
   descTag (fun a => a.tag == "section") "p",
   descTag (fun a => (classTokens a).contains "content") "p",
   descTag (fun a => a.role == some "main") "p",
   childTag "div" "p",
   (fun d e => e.tag == "p" && parentIsP (fun pe => pe.tag == "div"
      && parentIsP (fun ge => ge.tag == "div") d pe) d e),
   tagIs "li", childTag "ul" "li", childTag "ol" "li",
   hasClassTok "text-content", hasClassTok "description", hasClassTok "summary",
   (fun _ e => e.tag == "div" && (classTokens e).contains "text"),
   (fun _ e => e.tag == "span" && (classTokens e).contains "text"),
   (fun _ e => e.role == some "text"),
   (fun _ e => e.role == some "heading"),
   tagIs "label", tagIs "legend",
   hasClassTok "card-text", hasClassTok "info-text",
   tagIs "blockquote", tagIs "pre", tagIs "code"]

/-- The text selector list of the selective (non-`highlightAllText`)
branch, in source order. -/
def textSelSel : List SelM :=
  [tagIs "h1", tagIs "h2", tagIs "h3", tagIs "h4", tagIs "h5", tagIs "h6",
   tagIs "p",
   descTag (fun a => a.tag == "article") "p",
   descTag (fun a => a.tag == "main") "p",
   descTag (fun a => a.tag == "section") "p",
   descTag (fun a => (classTokens a).contains "content") "p",
   descTag (fun a => a.role == some "main") "p",
   tagIs "li",
   hasClassTok "text-content", hasClassTok "description", hasClassTok "summary",
   (fun _ e => e.role == some "text"),
   (fun _ e => e.role == some "heading"),
   tagIs "label", tagIs "legend",
   hasClassTok "card-text", hasClassTok "info-text",
   tagIs "blockquote", tagIs "pre", tagIs "code"]

/-- The comprehensive branch deduplicates its candidates; the selective
branch (as written in the source) does not. -/
def textCandidatesAll (d : Doc) : List FElem :=
  dedupF (textSelAll.flatMap (fun m => d.filter (m d)))

def textCandidatesSel (d : Doc) : List FElem :=
  textSelSel.flatMap (fun m => d.filter (m d))

/-- JS heading-tag test (`tagName.startsWith("h") && length === 2 && ...`). -/
def isHeadingTag (t : String) : Bool :=
  match t.data with
  | ['h', c] => decide ('1' ≤ c) && decide (c ≤ '6')
  | _ => false

/-- Significance filter of the comprehensive branch. -/
def sigTextAll (d : Doc) (s : HState) (e : FElem) : Bool :=
  if e.path ∈ s.processedText then false
  else if isHeadingTag e.tag then true
  else if trimStr (textContent d e.path) == "" then false
  else if s.processedText.any (fun q => pathAbove q e.path) then false
  else if 30 < subtreeElemCount d e.path then false
  else true

/-- Significance filter of the selective branch. -/
def sigTextSel (d : Doc) (s : HState) (e : FElem) : Bool :=
  if e.path ∈ s.processedText then false
  else if isHeadingTag e.tag then true
  else if trimStr (textContent d e.path) == "" then false
  else if (e.tag == "label" || e.tag == "legend")
      && 0 < (trimStr (textContent d e.path)).length then true
  else if 10 < (trimStr (textContent d e.path)).length then true
  else if s.processedText.any (fun q => pathAbove q e.path) then false
  else if 15 < subtreeElemCount d e.path then false
  else false

/-- JS `findAndHighlightTextBlocks`: candidates, significance filter,
per-pass cap (100 comprehensive, 50 selective), highlight loop. -/
def findAndHighlightTextBlocks (o : DetectorOpts) (d : Doc) (s : HState) : HState :=
  if o.highlightAllText then
    textPassGo ((((textCandidatesAll d).filter (sigTextAll d s)).take 100).map
      (fun e => e.path)) s 0
  else
    textPassGo ((((textCandidatesSel d).filter (sigTextSel d s)).take 50).map
      (fun e => e.path)) s 0

/-! ## Rescan (`refreshClickableElements`) -/

/-- The clickable-element portion of `refreshClickableElements`. -/
def refreshClickPass (o : DetectorOpts) (d : Doc) (s : HState) : HState :=
  passGo (((getClickableElements o d).map (fun e => e.path)).filter
    (fun p => decide (p ∉ s.processed))) s 0

/-- JS `refreshClickableElements` (one rescan cycle). -/
def refreshClickableElements (o : DetectorOpts) (d : Doc) (s : HState) : HState :=
  findAndHighlightTextBlocks o d (refreshClickPass o d s)

/-! ## Collection pass (`collectElementData`) -/

/-- First skip rule of `filterDuplicateElements`: a childless span/div/p
whose parent is a button, link or button-role element. -/
def textContainerSkipP (d : Doc) (p : List Nat) : Bool :=
  match findElem d p with
  | none => false
  | some e =>
    (e.tag == "span" || e.tag == "div" || e.tag == "p")
    && childElemCount d p == 0
    && (match parentElem d p with
        | some pe => pe.tag == "button" || pe.tag == "a" || pe.role == some "button"
        | none => false)

/-- Set insertion (JS `Set.prototype.add`). -/
def insertSet (x : List Nat) (l : List (List Nat)) : List (List Nat) :=
  if x ∈ l then l else l ++ [x]

/-- Inner loop of the first pass: mark every entry strictly contained in
`e` (JS `element !== otherElement && element.contains(otherElement)`). -/
def skipInner (e : List Nat) : List (List Nat) → List (List Nat) → List (List Nat)
  | [], sk => sk
  | o :: rest, sk =>
    skipInner e rest (if pathAbove e o then insertSet o sk else sk)

/-- One outer-loop step of the first pass: the element's own
text-container test, then the containment sweep over the whole list. -/
def skipStep (d : Doc) (es : List (List Nat)) (sk : List (List Nat))
    (e : List Nat) : List (List Nat) :=
  skipInner e es (if textContainerSkipP d e then insertSet e sk else sk)

/-- First pass of `filterDuplicateElements`: the `skipElements` set. -/
def skipPass (d : Doc) (es : List (List Nat)) : List (List Nat) :=
  es.foldl (skipStep d es) []

/-- JS `filterDuplicateElements` over the entry list (entries identified
by their element paths). -/
def filterDuplicateElements (d : Doc) (es : List (List Nat)) : List (List Nat) :=
  es.filter (fun e => decide (e ∉ skipPass d es))

/-- Selector of `findFormElements` for inputs
(`input:not([type="hidden"]):not([type="submit"]):not([type="button"]):not([type="reset"])`). -/
def formSelInput (e : FElem) : Bool :=
  e.tag == "input" && (match e.typeAttr with
    | none => true
    | some t => !(["hidden", "submit", "button", "reset"].contains t))

/-- The raw candidate list of `findFormElements` (inputs, then selects,
then textareas, each group in document order). -/
def formRaw (d : Doc) : List FElem :=
  d.filter formSelInput ++ d.filter (fun e => e.tag == "select")
    ++ d.filter (fun e => e.tag == "textarea")

/-- JS `findFormElements`: unregistered form controls with no registered
ancestor. -/
def findFormElements (d : Doc) (s : HState) : List FElem :=
  (formRaw d).filter (fun e =>
    decide (e.path ∉ s.processed)
      && !(s.processed.any (fun q => pathAbove q e.path)))

/-- The form-registration loop of `collectElementData`. -/
def registerForms (d : Doc) (s : HState) : HState :=
  passGo ((findFormElements d s).map (fun e => e.path)) s 0

/-- The entry list underlying the snapshot produced by
`collectElementData` (empty registries return early). -/
def collectEntries (d : Doc) (s : HState) : List (List Nat) :=
  if s.highlighted.isEmpty then []
  else filterDuplicateElements d (s.highlighted.map (fun en => en.1))

/-- The registry state after one `collectElementData` call. -/
def collectState (d : Doc) (s : HState) : HState :=
  if s.highlighted.isEmpty then s else registerForms d s

/-- The `isClickable` computation of the record projection; the
`getComputedStyle` call is not guarded there, so a throwing style probe
aborts the pass (modelled as `Except.error`).  The disjunction mirrors the
source's short-circuit order. -/
def recordIsClickable (e : FElem) : Except Unit Bool :=
  if e.tag == "a" || e.tag == "button"
      || (e.tag == "input"
          && ["button", "submit", "reset", "checkbox", "radio"].contains (e.typeAttr.getD ""))
      || e.role == some "button" then .ok true
  else if e.styleThrows then .error ()
  else .ok (e.cursor == "pointer" || e.hasOnClickA)

/-- Record projection over the snapshot entries. -/
def collectRecordsE (d : Doc) (ps : List (List Nat)) :
    Except Unit (List (List Nat × Bool)) :=
  ps.mapM (fun p => match findElem d p with
    | some e => (recordIsClickable e).map (fun b => (p, b))
    | none => .ok (p, false))

/-- JS `collectElementData`: early return on an empty registry, otherwise
duplicate filtering, form registration, then record projection. -/
def collectElementDataE (d : Doc) (s : HState) :
    Except Unit (List (List Nat × Bool) × HState) :=
  if s.highlighted.isEmpty then .ok ([], s)
  else
    (collectRecordsE d (filterDuplicateElements d (s.highlighted.map (fun en => en.1)))).map
      (fun recs => (recs, registerForms d s))

/-! ## Consent-button marking (`handleConsentButtons`, current detector) -/

def consentQueryMatch (e : FElem) : Bool :=
  e.tag == "button" || e.tag == "a" || e.role == some "button"
  || (e.tag == "input" && (e.typeAttr == some "button" || e.typeAttr == some "submit"))

def consentTextPatterns : List String :=
  ["accept", "agree", "allow", "consent", "cookie", "privacy", "gdpr",
   "reject", "decline", "no thanks", "i agree", "continue", "okay",
   "got it", "understood", "akzeptieren", "ablehnen", "alle akzeptieren",
   "verstanden"]

def consentClassPatterns : List String :=
  ["consent", "cookie", "gdpr", "privacy", "banner", "notice", "popup",
   "modal", "dialog"]

/-- JS `isClickableElement` inside `handleConsentButtons` (the style probe
for divs/spans is try/caught, falling back to the size test). -/
def isClickableElementCB (e : FElem) : Bool :=
  if e.tag == "button" || e.tag == "a" || e.role == some "button" then true
  else if e.tag == "div" || e.tag == "span" then
    let sizeOK := decide (e.width < 500) && decide (e.height < 100)
    if e.styleThrows then sizeOK else sizeOK && e.cursor == "pointer"
  else false

def hasConsentText (d : Doc) (e : FElem) : Bool :=
  consentTextPatterns.any (fun pat => strContains (lc (textContent d e.path)) (lc pat))

structure MarkState where
  count : Nat
  marked : List (List Nat)
deriving Repr, DecidableEq

/-- JS `findElementsByText`. -/
def findElementsByTextM (d : Doc) (st : MarkState) : MarkState :=
  (d.filter consentQueryMatch).foldl (fun st e =>
    if hasConsentText d e && isClickableElementCB e then
      ⟨st.count + 1, insertSet e.path st.marked⟩
    else st) st

def consentContainers (d : Doc) : List FElem :=
  consentClassPatterns.flatMap (fun pat =>
    d.filter (fun e => strContains e.className pat)
      ++ d.filter (fun e => strContains e.idAttr pat))

/-- JS `findElementsInConsentContainers`. -/
def findElementsInConsentContainersM (d : Doc) (st : MarkState) : MarkState :=
  (consentContainers d).foldl (fun st c =>
    (d.filter (fun q => pathAbove c.path q.path && consentQueryMatch q)).foldl
      (fun st q =>
        if isClickableElementCB q && decide (q.path ∉ st.marked) then
          ⟨st.count + 1, insertSet q.path st.marked⟩
        else st) st) st

/-- The aria-label fallback, attempted only when nothing was found. -/
def ariaConsentM (d : Doc) (st : MarkState) : MarkState :=
  if st.count == 0 then
    (d.filter (fun e => match e.ariaLabel with
      | some v => strContains (lc v) "cookie" || strContains (lc v) "consent"
          || strContains (lc v) "privacy"
      | none => false)).foldl (fun st e =>
        if isClickableElementCB e then ⟨st.count + 1, insertSet e.path st.marked⟩
        else st) st
  else st

/-- The set of elements marked `consent-button-detected` by
`handleConsentButtons` of the current detector. -/
def consentMarkedCurrent (d : Doc) : List (List Nat) :=
  (ariaConsentM d (findElementsInConsentContainersM d (findElementsByTextM d ⟨0, []⟩))).marked

/-! ## Legacy consent filter (older detector file, matching
`dist/highlighting/elementDetector.js`) -/

def consentActionPatternsLegacy : List String :=
  ["accept", "agree", "allow", "akzeptieren", "reject", "decline",
   "ablehnen", "alle akzeptieren", "alle ablehnen"]

def settingsWordsLegacy : List String :=
  ["settings", "preferences", "mehr", "options", "einstellungen",
   "personalisierung"]

def consentClassSignalsLegacy : List String :=
  ["consent-button", "accept", "agree", "disagree", "reject", "decline",
   "allow", "cookie-button", "cookie-consent"]

/-- The consent-button filter of the legacy detector's
`getClickableElements` (the lambda of `uniqueElements.filter` producing
`consentButtons`); a throwing style probe in the div branch is caught and
yields `false`. -/
def isConsentButtonLegacy (d : Doc) (e : FElem) : Bool :=
  if e.width == 0 || e.height == 0 then false
  else if (e.tag == "div" || e.tag == "span")
      && e.childNodesCount == 1 && e.firstChildIsText
      && (match parentElem d e.path with
          | some pe => pe.tag == "button" || pe.role == some "button"
          | none => false) then false
  else if (classTokens e).contains "consent-button-detected" then true
  else
    let elementText := lc (textContent d e.path)
    let elementId := lc e.idAttr
    let elementClasses := lc e.className
    let hasAction := consentActionPatternsLegacy.any (fun pat => strContains elementText pat)
    let isLikelySettingsLink :=
      settingsWordsLegacy.any (fun w => strContains elementText w)
      || (strContains elementText "cookie" && !hasAction)
    if isLikelySettingsLink && e.tag == "a" then false
    else
      let hasConsentClass := consentClassSignalsLegacy.any (fun pat =>
        strContains elementClasses pat || strContains elementId pat)
      let isPotential :=
        hasAction || (strContains elementText "cookie"
          && (e.tag == "button" || hasConsentClass))
      if isPotential then
        if e.tag == "button" || e.role == some "button" then true
        else if e.tag == "a" && hasAction then true
        else if e.tag == "div" then
          if e.styleThrows then false
          else (hasConsentClass || hasAction)
            && (decide (e.width < 400) && decide (e.height < 100)
                && decide (40 < e.width) && decide (15 < e.height))
            && e.cursor == "pointer"
        else false
      else false

/-! ## Concrete scenarios -/

/-- The detector options `go` installs by default
(`focusOnConsent: false, includeFormInputs: true, highlightAllText: true`). -/
def defaultOpts : DetectorOpts := ⟨false, true, true⟩

/-- Options selecting the selective text-block branch, form inputs off. -/
def selOpts : DetectorOpts := ⟨false, false, false⟩

/-- A document whose body holds one visible button. -/
def dButton : Doc :=
  [{ baseElem with
      path := [0]
      tag := "button"
      ownText := "Go"
      childNodesCount := 1
      firstChildIsText := true }]

/-- State after the initial scan of `dButton`. -/
def sButton : HState := refreshClickableElements defaultOpts dButton emptyHState

/-- Snapshot counts over `dButton`: every collect call sees its registry. -/
def countsButton : Nat → Nat := fun _ => (collectEntries dButton sButton).length

/-- Two sibling buttons. -/
def dPairBtn : Doc :=
  [{ baseElem with
      path := [0]
      tag := "button"
      ownText := "A"
      childNodesCount := 1
      firstChildIsText := true },
   { baseElem with
      path := [1]
      tag := "button"
      ownText := "B"
      top := 100
      childNodesCount := 1
      firstChildIsText := true }]

/-- State after the initial scan of `dPairBtn`. -/
def sPairBtn : HState := refreshClickableElements defaultOpts dPairBtn emptyHState

/-- An anchor whose whole text is the bare word "cookies". -/
def cookieAnchor : FElem :=
  { baseElem with
      path := [0]
      tag := "a"
      ownText := "cookies"
      childNodesCount := 1
      firstChildIsText := true }

def dCookie : Doc := [cookieAnchor]

/-- A label element carrying one short text node. -/
def labelElem (i : Nat) : FElem :=
  { baseElem with
      path := [i]
      tag := "label"
      ownText := "x"
      top := 30 * i
      childNodesCount := 1
      firstChildIsText := true }

/-- A body with 51 sibling labels (one more than the selective text cap). -/
def dLabels : Doc := (List.range 51).map labelElem

/-- An anchor link at vertical position `t`. -/
def aLink (i : Nat) (t : Int) : FElem :=
  { baseElem with
      path := [i]
      tag := "a"
      top := t }

/-- First document state: two links. -/
def dTwoLinks : Doc := [aLink 0 0, aLink 1 100]

/-- After a mutation: a third link was appended. -/
def dThreeLinks : Doc := [aLink 0 0, aLink 1 100, aLink 2 200]

/-- Nested divs: the outer carries `onclick`, the inner `cursor: pointer`. -/
def outerDiv : FElem :=
  { baseElem with
      path := [0]
      tag := "div"
      hasOnClickA := true
      width := 200
      height := 50 }

def innerDiv : FElem :=
  { baseElem with
      path := [0, 0]
      tag := "div"
      cursor := "pointer"
      width := 100
      height := 30
      ownText := "Click"
      childNodesCount := 1
      firstChildIsText := true }

def dNested : Doc := [outerDiv, innerDiv]

/-- State after the initial scan of `dNested`. -/
def sNested : HState := refreshClickableElements defaultOpts dNested emptyHState

/-- A label whose style probe throws, alongside a healthy button. -/
def labelThrow : FElem :=
  { baseElem with
      path := [0]
      tag := "label"
      hasOnClickA := true
      styleThrows := true }

def buttonGo : FElem :=
  { baseElem with
      path := [1]
      tag := "button"
      ownText := "Go"
      top := 100
      childNodesCount := 1
      firstChildIsText := true }

def dScanThrow : Doc := [labelThrow, buttonGo]

/-- A registry holding a healthy button and a div whose style probe
throws (a consent-marked div is registered through the consent pass even
when its style probe throws, via the size-only fallback). -/
def buttonOk : FElem :=
  { baseElem with
      path := [0]
      tag := "button"
      ownText := "OK"
      childNodesCount := 1
      firstChildIsText := true }

def divThrow : FElem :=
  { baseElem with
      path := [1]
      tag := "div"
      styleThrows := true
      top := 100
      ownText := "accept cookies"
      childNodesCount := 1
      firstChildIsText := true }

def dCollectThrow : Doc := [buttonOk, divThrow]

def sCollectThrow : HState := ⟨[[0], [1]], [([0], 1), ([1], 2)], [], []⟩

/-- A document holding a single unregistered text input. -/
def dLoneInput : Doc :=
  [{ baseElem with
      path := [0]
      tag := "input"
      typeAttr := some "text" }]

/-- A registered button next to an unregistered text input. -/
def inputNine : FElem :=
  { baseElem with
      path := [1]
      tag := "input"
      typeAttr := some "text"
      top := 100 }

def dBtnInput : Doc :=
  [{ baseElem with
      path := [0]
      tag := "button"
      ownText := "OK"
      childNodesCount := 1
      firstChildIsText := true },
   inputNine]

def sBtnInput : HState := ⟨[[0]], [([0], 1)], [], []⟩

/-! ## Properties of the wait loop -/

theorem goLoop_wait_bound (cfg : GoCfg) (counts : Nat → Nat) :
    ∀ (ivs : List Nat) (k t e : Nat), (∀ i ∈ ivs, i ≤ 1500) →
      t ≤ cfg.waitTime + 1499 →
      (goLoop cfg counts ivs k t e).2.1 ≤ cfg.waitTime + 1499 := by
  intro ivs
  induction ivs with
  | nil => intro k t e _ ht; simpa [goLoop] using ht
  | cons i rest ih =>
    intro k t e hall ht
    simp only [goLoop]
    by_cases hstop : cfg.waitTime ≤ t
    · simp [hstop, ht]
    · have hi : i ≤ 1500 := hall i (List.mem_cons_self i rest)
      have ht' : t + i ≤ cfg.waitTime + 1499 := by
        have htlt : t < cfg.waitTime := Nat.lt_of_not_le hstop
        omega
      by_cases hearly : (cfg.earlyReturn && decide (cfg.minElementsRequired ≤ counts k)) = true
      · simp [hstop, hearly, ht']
      · simp only [hstop, if_false, hearly]
        simpa using ih (k + 1) (t + i) (counts k)
          (fun j hj => hall j (List.mem_cons_of_mem i hj)) ht'

/-! Basic invariants of the registration pass. -/

theorem highlight_processed_mono (p : List Nat) (idx : Nat) (s : HState) :
    ∀ q ∈ s.processed, q ∈ (highlightClickableElement p idx s).processed := by
  intro q hq
  unfold highlightClickableElement
  by_cases h : p ∈ s.processed
  · simpa [h] using hq
  · simp [h, List.mem_append, hq]

theorem highlight_highlighted_append (p : List Nat) (idx : Nat) (s : HState) :
    ∃ tail, (highlightClickableElement p idx s).highlighted = s.highlighted ++ tail := by
  unfold highlightClickableElement
  by_cases h : p ∈ s.processed
  · exact ⟨[], by simp [h]⟩
  · exact ⟨[(p, idx)], by simp [h]⟩

theorem highlight_adds (p : List Nat) (idx : Nat) (s : HState) :
    p ∈ (highlightClickableElement p idx s).processed := by
  unfold highlightClickableElement
  by_cases h : p ∈ s.processed
  · simp [h]
  · simp [h]

theorem highlight_text_fields (p : List Nat) (idx : Nat) (s : HState) :
    (highlightClickableElement p idx s).processedText = s.processedText ∧
      (highlightClickableElement p idx s).highlightedText = s.highlightedText := by
  unfold highlightClickableElement
  by_cases h : p ∈ s.processed <;> simp [h]

theorem passGo_processed_mono (l : List (List Nat)) :
    ∀ (s : HState) (i : Nat) (q : List Nat),
      q ∈ s.processed → q ∈ (passGo l s i).processed := by
  induction l with
  | nil => intro s i q hq; simpa [passGo] using hq
  | cons p rest ih =>
    intro s i q hq
    simp only [passGo]
    exact ih _ _ q (highlight_processed_mono p _ s q hq)

theorem passGo_covers (l : List (List Nat)) :
    ∀ (s : HState) (i : Nat) (q : List Nat),
      q ∈ l → q ∈ (passGo l s i).processed := by
  induction l with
  | nil => intro s i q hq; simp at hq
  | cons p rest ih =>
    intro s i q hq
    simp only [passGo]
    rcases List.mem_cons.mp hq with h | h
    · subst h
      exact passGo_processed_mono rest _ _ q (highlight_adds q _ s)
    · exact ih _ _ q h

theorem passGo_highlighted_append (l : List (List Nat)) :
    ∀ (s : HState) (i : Nat),
      ∃ tail, (passGo l s i).highlighted = s.highlighted ++ tail := by
  induction l with
  | nil => intro s i; exact ⟨[], by simp [passGo]⟩
  | cons p rest ih =>
    intro s i
    simp only [passGo]
    obtain ⟨t1, ht1⟩ := highlight_highlighted_append p (s.highlighted.length + i + 1) s
    obtain ⟨t2, ht2⟩ := ih (highlightClickableElement p (s.highlighted.length + i + 1) s) (i + 1)
    exact ⟨t1 ++ t2, by rw [ht2, ht1, List.append_assoc]⟩

theorem passGo_text_fields (l : List (List Nat)) :
    ∀ (s : HState) (i : Nat),
      (passGo l s i).processedText = s.processedText ∧
        (passGo l s i).highlightedText = s.highlightedText := by
  induction l with
  | nil => intro s i; simp [passGo]
  | cons p rest ih =>
    intro s i
    simp only [passGo]
    obtain ⟨h1, h2⟩ := ih (highlightClickableElement p (s.highlighted.length + i + 1) s) (i + 1)
    obtain ⟨h3, h4⟩ := highlight_text_fields p (s.highlighted.length + i + 1) s
    exact ⟨h1.trans h3, h2.trans h4⟩

theorem textPassGo_click_fields (l : List (List Nat)) :
    ∀ (s : HState) (i : Nat),
      (textPassGo l s i).processed = s.processed ∧
        (textPassGo l s i).highlighted = s.highlighted := by
  induction l with
  | nil => intro s i; simp [textPassGo]
  | cons p rest ih =>
    intro s i
    simp only [textPassGo]
    obtain ⟨h1, h2⟩ := ih (highlightTextBlock p (s.highlightedText.length + i + 1) s) (i + 1)
    have h3 : (highlightTextBlock p (s.highlightedText.length + i + 1) s).processed
        = s.processed := by
      unfold highlightTextBlock
      by_cases h : p ∈ s.processedText <;> simp [h]
    have h4 : (highlightTextBlock p (s.highlightedText.length + i + 1) s).highlighted
        = s.highlighted := by
      unfold highlightTextBlock
      by_cases h : p ∈ s.processedText <;> simp [h]
    exact ⟨h1.trans h3, h2.trans h4⟩

theorem passGo_pushes (l : List (List Nat)) :
    ∀ (s : HState) (i : Nat) (x : List Nat), x ∈ l → x ∉ s.processed →
      x ∈ (passGo l s i).highlighted.map Prod.fst := by
  induction l with
  | nil => intro s i x hx _; simp at hx
  | cons p rest ih =>
    intro s i x hx hnp
    simp only [passGo]
    by_cases hxp : x = p
    · subst hxp
      have hst : highlightClickableElement x (s.highlighted.length + i + 1) s =
          { s with
            processed := s.processed ++ [x]
            highlighted := s.highlighted ++ [(x, s.highlighted.length + i + 1)] } := by
        unfold highlightClickableElement; simp [hnp]
      rw [hst]
      obtain ⟨tail, htail⟩ := passGo_highlighted_append rest
        { s with
          processed := s.processed ++ [x]
          highlighted := s.highlighted ++ [(x, s.highlighted.length + i + 1)] } (i + 1)
      rw [htail]
      simp
    · have hx' : x ∈ rest := by
        rcases List.mem_cons.mp hx with h | h
        · exact absurd h hxp
        · exact h
      by_cases hpp : p ∈ s.processed
      · have hst : highlightClickableElement p (s.highlighted.length + i + 1) s = s := by
          unfold highlightClickableElement; simp [hpp]
        rw [hst]
        exact ih s (i + 1) x hx' hnp
      · have hst : highlightClickableElement p (s.highlighted.length + i + 1) s =
            { s with
              processed := s.processed ++ [p]
              highlighted := s.highlighted ++ [(p, s.highlighted.length + i + 1)] } := by
          unfold highlightClickableElement; simp [hpp]
        rw [hst]
        apply ih _ (i + 1) x hx'
        simp [hnp, hxp]

theorem passGo_highlighted_source (l : List (List Nat)) :
    ∀ (s : HState) (i : Nat) (q : List Nat),
      q ∈ (passGo l s i).highlighted.map Prod.fst →
      q ∈ s.highlighted.map Prod.fst ∨ q ∈ l := by
  induction l with
  | nil => intro s i q hq; exact Or.inl (by simpa [passGo] using hq)
  | cons p rest ih =>
    intro s i q hq
    simp only [passGo] at hq
    rcases ih _ (i + 1) q hq with h | h
    · unfold highlightClickableElement at h
      by_cases hpp : p ∈ s.processed
      · simp [hpp] at h
        exact Or.inl (by simpa using h)
      · simp [hpp] at h
        rcases h with h1 | h1
        · exact Or.inl (by simpa using h1)
        · exact Or.inr (by simp [h1])
    · exact Or.inr (List.mem_cons_of_mem p h)

theorem passGo_handles_pairwise (l : List (List Nat)) :
    ∀ (s : HState) (i n₀ : Nat), n₀ ≤ s.highlighted.length →
      (∀ h ∈ (s.highlighted.drop n₀).map Prod.snd, h ≤ s.highlighted.length + i) →
      List.Pairwise (· < ·) ((s.highlighted.drop n₀).map Prod.snd) →
      List.Pairwise (· < ·) (((passGo l s i).highlighted.drop n₀).map Prod.snd) := by
  induction l with
  | nil => intro s i n₀ _ _ hp; simpa [passGo] using hp
  | cons p rest ih =>
    intro s i n₀ hn hb hp
    simp only [passGo]
    by_cases hmem : p ∈ s.processed
    · have hst : highlightClickableElement p (s.highlighted.length + i + 1) s = s := by
        unfold highlightClickableElement; simp [hmem]
      rw [hst]
      exact ih s (i + 1) n₀ hn (fun h hh => le_trans (hb h hh) (by omega)) hp
    · have hst : highlightClickableElement p (s.highlighted.length + i + 1) s =
          { s with
            processed := s.processed ++ [p]
            highlighted := s.highlighted ++ [(p, s.highlighted.length + i + 1)] } := by
        unfold highlightClickableElement; simp [hmem]
      rw [hst]
      have hdrop : ((s.highlighted ++ [(p, s.highlighted.length + i + 1)]).drop n₀)
          = s.highlighted.drop n₀ ++ [(p, s.highlighted.length + i + 1)] :=
        List.drop_append_of_le_length hn
      apply ih _ (i + 1) n₀
      · simp; omega
      · intro h hh
        simp only [hdrop, List.map_append] at hh
        rcases List.mem_append.mp hh with h1 | h1
        · have := hb h h1
          simp
          omega
        · simp at h1
          simp [h1]
          omega
      · simp only [hdrop, List.map_append]
        rw [List.pairwise_append]
        refine ⟨hp, by simp, ?_⟩
        intro x hx y hy
        simp at hy
        have := hb x hx
        omega

/-! ## Properties of the duplicate filter -/

theorem mem_insertSet_self (x : List Nat) (l : List (List Nat)) :
    x ∈ insertSet x l := by
  unfold insertSet
  by_cases h : x ∈ l <;> simp [h]

theorem mem_insertSet_mono {q : List Nat} (x : List Nat) {l : List (List Nat)}
    (hq : q ∈ l) : q ∈ insertSet x l := by
  unfold insertSet
  by_cases h : x ∈ l <;> simp [h, hq]

theorem mem_insertSet_elim {q x : List Nat} {l : List (List Nat)}
    (hq : q ∈ insertSet x l) : q ∈ l ∨ q = x := by
  unfold insertSet at hq
  by_cases h : x ∈ l
  · simp [h] at hq; exact Or.inl hq
  · simp [h] at hq
    rcases hq with h1 | h1
    · exact Or.inl h1
    · exact Or.inr h1

theorem skipInner_mono (e : List Nat) :
    ∀ (l sk : List (List Nat)) (q : List Nat), q ∈ sk → q ∈ skipInner e l sk := by
  intro l
  induction l with
  | nil => intro sk q hq; simpa [skipInner] using hq
  | cons o rest ih =>
    intro sk q hq
    simp only [skipInner]
    apply ih
    by_cases h : pathAbove e o <;> simp [h, hq, mem_insertSet_mono]

theorem mem_skipInner (e : List Nat) :
    ∀ (l sk : List (List Nat)) (o : List Nat),
      o ∈ l → pathAbove e o = true → o ∈ skipInner e l sk := by
  intro l
  induction l with
  | nil => intro sk o ho; simp at ho
  | cons x rest ih =>
    intro sk o ho hab
    simp only [skipInner]
    rcases List.mem_cons.mp ho with h | h
    · subst h
      exact skipInner_mono e rest _ o (by simp [hab, mem_insertSet_self])
    · exact ih _ o h hab

theorem skipInner_elim (e : List Nat) :
    ∀ (l sk : List (List Nat)) (q : List Nat),
      q ∈ skipInner e l sk → q ∈ sk ∨ (q ∈ l ∧ pathAbove e q = true) := by
  intro l
  induction l with
  | nil => intro sk q hq; exact Or.inl (by simpa [skipInner] using hq)
  | cons o rest ih =>
    intro sk q hq
    simp only [skipInner] at hq
    rcases ih _ q hq with h | h
    · by_cases hab : pathAbove e o
      · simp [hab] at h
        rcases mem_insertSet_elim h with h1 | h1
        · exact Or.inl h1
        · subst h1; exact Or.inr ⟨List.mem_cons_self _ _, hab⟩
      · simp [hab] at h
        exact Or.inl h
    · exact Or.inr ⟨List.mem_cons_of_mem _ h.1, h.2⟩

theorem skipStep_mono (d : Doc) (es : List (List Nat)) (sk : List (List Nat))
    (e q : List Nat) (hq : q ∈ sk) : q ∈ skipStep d es sk e := by
  unfold skipStep
  apply skipInner_mono
  by_cases h : textContainerSkipP d e <;> simp [h, hq, mem_insertSet_mono]

theorem foldSkip_mono (d : Doc) (es : List (List Nat)) :
    ∀ (l : List (List Nat)) (sk : List (List Nat)) (q : List Nat),
      q ∈ sk → q ∈ l.foldl (skipStep d es) sk := by
  intro l
  induction l with
  | nil => intro sk q hq; simpa using hq
  | cons e rest ih =>
    intro sk q hq
    simp only [List.foldl_cons]
    exact ih _ q (skipStep_mono d es sk e q hq)

theorem mem_skipPass_of_above (d : Doc) (es : List (List Nat))
    (a b : List Nat) (ha : a ∈ es) (hb : b ∈ es)
    (hab : pathAbove a b = true) : b ∈ skipPass d es := by
  unfold skipPass
  have main : ∀ (l sk : List (List Nat)), a ∈ l → b ∈ l.foldl (skipStep d es) sk := by
    intro l
    induction l with
    | nil => intro sk h; simp at h
    | cons x rest ih =>
      intro sk h
      simp only [List.foldl_cons]
      rcases List.mem_cons.mp h with h1 | h1
      · subst h1
        apply foldSkip_mono
        unfold skipStep
        exact mem_skipInner a es _ b hb hab
      · exact ih _ h1
  exact main es [] ha

theorem mem_skipPass_elim (d : Doc) (es : List (List Nat)) (q : List Nat)
    (hq : q ∈ skipPass d es) :
    textContainerSkipP d q = true ∨ ∃ e ∈ es, pathAbove e q = true := by
  unfold skipPass at hq
  have main : ∀ (l sk : List (List Nat)), (∀ x ∈ l, x ∈ es) →
      (∀ r ∈ sk, textContainerSkipP d r = true ∨ ∃ e ∈ es, pathAbove e r = true) →
      q ∈ l.foldl (skipStep d es) sk →
      textContainerSkipP d q = true ∨ ∃ e ∈ es, pathAbove e q = true := by
    intro l
    induction l with
    | nil => intro sk _ hinv hmem; exact hinv q (by simpa using hmem)
    | cons x rest ih =>
      intro sk hsub hinv hmem
      simp only [List.foldl_cons] at hmem
      refine ih _ (fun y hy => hsub y (List.mem_cons_of_mem x hy)) ?_ hmem
      intro r hr
      unfold skipStep at hr
      rcases skipInner_elim x es _ r hr with h | h
      · by_cases htc : textContainerSkipP d x
        · simp [htc] at h
          rcases mem_insertSet_elim h with h1 | h1
          · exact hinv r h1
          · subst h1; exact Or.inl htc
        · simp [htc] at h
          exact hinv r h
      · exact Or.inr ⟨x, hsub x (List.mem_cons_self x rest), h.2⟩
  exact main es [] (fun x hx => hx) (by intro r hr; simp at hr) hq

theorem filterDuplicate_subset (d : Doc) (es : List (List Nat)) (q : List Nat)
    (hq : q ∈ filterDuplicateElements d es) : q ∈ es :=
  (List.mem_filter.mp hq).1

theorem filterDuplicate_not_skipped (d : Doc) (es : List (List Nat)) (q : List Nat)
    (hq : q ∈ filterDuplicateElements d es) : q ∉ skipPass d es := by
  have := (List.mem_filter.mp hq).2
  simpa using this

/-! ## Properties of the form-element scan -/

theorem formRaw_tag (d : Doc) (f : FElem) (hf : f ∈ formRaw d) :
    f.tag = "input" ∨ f.tag = "select" ∨ f.tag = "textarea" := by
  unfold formRaw at hf
  rcases List.mem_append.mp hf with h | h
  · rcases List.mem_append.mp h with h1 | h1
    · left
      have := (List.mem_filter.mp h1).2
      unfold formSelInput at this
      have htag : (f.tag == "input") = true := by
        cases hb : (f.tag == "input")
        · rw [hb] at this; simp at this
        · rfl
      exact beq_iff_eq.mp htag
    · right; left
      exact beq_iff_eq.mp (List.mem_filter.mp h1).2
  · right; right
    exact beq_iff_eq.mp (List.mem_filter.mp h).2

theorem formRaw_not_textContainer (d : Doc) (f : FElem) (hf : f ∈ formRaw d)
    (hwf : findElem d f.path = some f) :
    textContainerSkipP d f.path = false := by
  unfold textContainerSkipP
  rw [hwf]
  rcases formRaw_tag d f hf with h | h | h <;> simp [h]

/-! ## Claims about the Convergence Controller -/

/-- C3 (counterexample): with the default 3000 ms budget and a page that
never reaches the minimum count, the interval loop performs
300 + 500 + 700 + 1000 + 1500 = 4000 ms of waiting, exceeding the
budget `waitTime`, contrary to the claim that the total never exceeds it
and that a 3000 ms budget stops waiting at or before 3000 ms. -/
theorem c3_budget_overrun_counterexample :
    (goRun ⟨3000, 1, true⟩ (fun _ => 0)).1 = 4000 ∧
      3000 < (goRun ⟨3000, 1, true⟩ (fun _ => 0)).1 := by
  constructor <;> decide

/-- C3 (amended): every wait interval starts only while the elapsed total
is strictly below `waitTime`, so the total wait performed by `go` is
bounded by `waitTime + 1499` (1500 being the largest interval of the
table); the final remaining-budget wait ends exactly at `waitTime`.  The
total can exceed `waitTime` itself, as the counterexample shows. -/
theorem c3_total_wait_bounded (cfg : GoCfg) (counts : Nat → Nat) :
    (goRun cfg counts).1 ≤ cfg.waitTime + 1499 := by
  unfold goRun
  have hloop := goLoop_wait_bound cfg counts checkIntervals 0 0 0 (by decide) (by omega)
  rcases hgl : goLoop cfg counts checkIntervals 0 0 0 with ⟨k, t, e⟩
  rw [hgl] at hloop
  simp only at hloop
  by_cases h1 : e < cfg.minElementsRequired ∧ t < cfg.waitTime
  · have ht : t + (cfg.waitTime - t) = cfg.waitTime := by omega
    by_cases h2 : 0 < cfg.waitTime - t
    · simp [finishGo, h1, h2, ht]
    · simp [finishGo, h1, h2]
      exact hloop
  · simp [finishGo, h1]
    exact hloop

/-- C6: with `minElementsRequired = 1`, `earlyReturn = true` and a first
snapshot already holding at least one element, the wait loop stops after
the first 300 ms interval (or performs no wait at all when the budget is
zero): the total wait never exceeds 300 ms. -/
theorem c6_early_exit (waitTime : Nat) (counts : Nat → Nat) (h : 1 ≤ counts 0) :
    (goRun ⟨waitTime, 1, true⟩ counts).1 ≤ 300 := by
  unfold goRun checkIntervals
  simp only [goLoop]
  by_cases hw : waitTime ≤ 0
  · have hw0 : waitTime = 0 := by omega
    subst hw0
    simp [finishGo]
  · have hd : (true && decide (1 ≤ counts 0)) = true := by
      simp [h]
    simp only [GoCfg.earlyReturn] at hd ⊢
    rw [if_neg (by simpa using hw), hd]
    simp only [if_true]
    have hc0 : ¬ (counts 0 = 0) := by omega
    simp [finishGo, hc0]

/-- C6 (witness): the one-button document, scanned at engine start,
yields a first snapshot of count 1, and the run stops within 300 ms. -/
theorem c6_early_exit_witness :
    1 ≤ countsButton 0 ∧ (goRun ⟨3000, 1, true⟩ countsButton).1 ≤ 300 :=
  ⟨by decide, c6_early_exit 3000 countsButton (by decide)⟩

/-! ## Claims about the deduplicated snapshot -/

/-- C1: in every snapshot produced by `collectElementData`, no two
records reference nodes in ancestor/descendant relation: for any two
entries of the filtered entry list, neither path strictly contains the
other (`pathAbove` is the strict-ancestor test; for equal paths it is
false by definition, and for distinct records the claim follows). -/
theorem c1_snapshot_containment (d : Doc) (s : HState) (a b : List Nat)
    (ha : a ∈ collectEntries d s) (hb : b ∈ collectEntries d s) :
    pathAbove a b = false ∧ pathAbove b a = false := by
  unfold collectEntries at ha hb
  by_cases hemp : s.highlighted.isEmpty
  · rw [if_pos hemp] at ha
    simp at ha
  · rw [if_neg hemp] at ha hb
    constructor
    · cases hab : pathAbove a b
      · rfl
      · exact absurd
          (mem_skipPass_of_above d (s.highlighted.map (fun en => en.1)) a b
            (filterDuplicate_subset _ _ _ ha) (filterDuplicate_subset _ _ _ hb) hab)
          (filterDuplicate_not_skipped _ _ _ hb)
    · cases hab : pathAbove b a
      · rfl
      · exact absurd
          (mem_skipPass_of_above d (s.highlighted.map (fun en => en.1)) b a
            (filterDuplicate_subset _ _ _ hb) (filterDuplicate_subset _ _ _ ha) hab)
          (filterDuplicate_not_skipped _ _ _ ha)

/-- C1 (witness): the two-button document yields a snapshot with both
entries, and neither contains the other. -/
theorem c1_snapshot_containment_witness :
    ([0] ∈ collectEntries dPairBtn sPairBtn ∧ [1] ∈ collectEntries dPairBtn sPairBtn) ∧
      (pathAbove [0] [1] = false ∧ pathAbove [1] [0] = false) :=
  ⟨⟨by decide, by decide⟩,
    c1_snapshot_containment dPairBtn sPairBtn [0] [1] (by decide) (by decide)⟩

/-! ## Claims about handle assignment -/

/-- C5 (counterexample): across two rescans (two links at first, a third
appended by a mutation), the handles assigned are 1, 3 and then 3 again:
handle 3 goes to two different elements, so handles do not strictly
increase across the session and a handle value is reused, contrary to the
claim. -/
theorem c5_handle_reuse_counterexample :
    (refreshClickableElements defaultOpts dThreeLinks
        (refreshClickableElements defaultOpts dTwoLinks emptyHState)).highlighted
      = [([0], 1), ([1], 3), ([2], 3)] ∧
    ¬ List.Pairwise (· < ·)
      ((refreshClickableElements defaultOpts dThreeLinks
          (refreshClickableElements defaultOpts dTwoLinks emptyHState)).highlighted.map
        Prod.snd) := by
  constructor <;> decide

/-- C5 (amended): within a single registration pass the assigned handles
do strictly increase (each new handle exceeds every handle assigned
earlier in the same pass); reuse only happens across passes, because
`window.highlightedElements.length` is re-read at every iteration. -/
theorem c5_pass_handles_increase (l : List (List Nat)) (s : HState) :
    List.Pairwise (· < ·)
      (((passGo l s 0).highlighted.drop s.highlighted.length).map Prod.snd) :=
  passGo_handles_pairwise l s 0 s.highlighted.length le_rfl
    (by simp) (by simp)

/-! ## Claims about the idempotence of a rescan -/

/-- C4 (amended): an immediate second rescan over an unchanged document
registers no new clickable element and no new clickable handle: the
`processedElements` set already covers every candidate that
`getClickableElements` returns. -/
theorem c4_remerge_adds_no_clickable (o : DetectorOpts) (d : Doc) (s : HState) :
    (refreshClickableElements o d (refreshClickableElements o d s)).highlighted
        = (refreshClickableElements o d s).highlighted ∧
      (refreshClickableElements o d (refreshClickableElements o d s)).processed
        = (refreshClickableElements o d s).processed := by
  have tfix : ∀ s' : HState,
      (findAndHighlightTextBlocks o d s').processed = s'.processed ∧
        (findAndHighlightTextBlocks o d s').highlighted = s'.highlighted := by
    intro s'
    unfold findAndHighlightTextBlocks
    by_cases hb : o.highlightAllText
    · rw [if_pos hb]
      exact textPassGo_click_fields _ _ _
    · rw [if_neg hb]
      exact textPassGo_click_fields _ _ _
  have key : ∀ s1 : HState,
      (∀ p ∈ (getClickableElements o d).map (fun e => e.path), p ∈ s1.processed) →
      refreshClickableElements o d s1 = findAndHighlightTextBlocks o d s1 := by
    intro s1 hcov
    have hnil : (((getClickableElements o d).map (fun e => e.path)).filter
        (fun p => decide (p ∉ s1.processed))) = [] := by
      rw [List.filter_eq_nil_iff]
      intro p hp
      simp [hcov p hp]
    unfold refreshClickableElements refreshClickPass
    rw [hnil]
    rfl
  have hcov1 : ∀ p ∈ (getClickableElements o d).map (fun e => e.path),
      p ∈ (refreshClickableElements o d s).processed := by
    intro p hp
    unfold refreshClickableElements
    rw [(tfix (refreshClickPass o d s)).1]
    unfold refreshClickPass
    by_cases hmem : p ∈ s.processed
    · exact passGo_processed_mono _ _ _ p hmem
    · apply passGo_covers
      simp only [List.mem_filter]
      exact ⟨hp, by simp [hmem]⟩
  rw [key (refreshClickableElements o d s) hcov1]
  exact ⟨(tfix _).2, (tfix _).1⟩

/-- C4 (counterexample): the text-block portion of the same rescan is not
idempotent.  On a document of 51 labels in the selective mode, the first
rescan highlights 50 text blocks (the per-pass cap) and an immediate
second rescan with no document change highlights one more, assigning a
new handle. -/
theorem c4_text_remerge_counterexample :
    ((refreshClickableElements selOpts dLabels emptyHState).highlightedText).length = 50 ∧
    ((refreshClickableElements selOpts dLabels
        (refreshClickableElements selOpts dLabels emptyHState)).highlightedText).length
      = 51 := by
  constructor <;> decide

/-! ## Claims about the element caps -/

/-- C10 (amended): the per-pass caps hold: `getClickableElements` returns
at most 100 elements, and a text-block pass highlights at most 100
blocks (comprehensive mode) respectively at most 50 (selective mode). -/
theorem c10_inventory_caps (o : DetectorOpts) (d : Doc) (s : HState) :
    (getClickableElements o d).length ≤ 100 ∧
      (((textCandidatesAll d).filter (sigTextAll d s)).take 100).length ≤ 100 ∧
      (((textCandidatesSel d).filter (sigTextSel d s)).take 50).length ≤ 50 := by
  refine ⟨?_, ?_, ?_⟩
  · unfold getClickableElements
    exact List.length_take_le _ _
  · exact List.length_take_le _ _
  · exact List.length_take_le _ _

/-- C10 (counterexample): elements beyond the caps are not "never
registered or reported": on a document of 51 labels in the selective
mode, label 51 lies beyond the 50-cap of the first pass and is not
registered there, yet the very next rescan over the unchanged document
registers and reports it as a text block. -/
theorem c10_beyond_cap_registered_counterexample :
    [50] ∉ (refreshClickableElements selOpts dLabels emptyHState).processedText ∧
    [50] ∈ (refreshClickableElements selOpts dLabels
        (refreshClickableElements selOpts dLabels emptyHState)).processedText ∧
    [50] ∈ ((refreshClickableElements selOpts dLabels
        (refreshClickableElements selOpts dLabels emptyHState)).highlightedText.map
      Prod.fst) := by
  refine ⟨by decide, by decide, by decide⟩

/-! ## Claims about the nested-div scenario -/

/-- C7 (counterexample): for the nested divs (outer with `onclick`, inner
with `cursor: pointer`, both visible), the snapshot does not consist of
the outer div: no candidate selector matches an onclick-only div and its
computed cursor is not `pointer`, so the outer div never enters the scan. -/
theorem c7_outer_div_counterexample :
    ¬ (collectEntries dNested sNested = [[0]]) := by
  decide

/-- C7 (amended): the snapshot of the nested-div document contains
exactly one record, and it is the inner div (found through the
cursor-pointer scan); the outer div is absent. -/
theorem c7_inner_div_wins :
    collectEntries dNested sNested = [[0, 0]] ∧
      (collectEntries dNested sNested).length = 1 := by
  constructor <;> decide

/-! ## Claims about throwing style probes -/

/-- C8 (counterexample): the `isClickable` computation of
`collectElementData` reads `getComputedStyle` without any try/catch, so
one registered div whose style probe throws aborts the whole collection
pass: no record is produced for any element. -/
theorem c8_collect_throw_counterexample :
    collectElementDataE dCollectThrow sCollectThrow = Except.error () := by
  rfl

/-- C8 (amended): inside the scan, `processElement` wraps its style probe
in try/catch: an element whose style probe throws is treated as
non-matching (even though it carries an `onclick` attribute, whose check
sits inside the same try block), and the scan completes, still returning
the other elements. -/
theorem c8_scan_tolerates_throw :
    labelThrow.styleThrows = true ∧ labelThrow.hasOnClickA = true ∧
      (getClickableElements defaultOpts dScanThrow).map (fun e => e.path) = [[1]] := by
  refine ⟨rfl, rfl, by decide⟩

/-! ## Claims about consent classification -/

/-- C2 (counterexample): in the current detector's
`handleConsentButtons`, an anchor whose entire text is the bare word
"cookies" (no action verb, no consent class or id) is marked
`consent-button-detected`: the text pass matches the "cookie" lexicon
entry and `isClickableElement` accepts every anchor; no exclusion lexicon
exists in that code path, contrary to the claim. -/
theorem c2_bare_cookies_marked_counterexample :
    cookieAnchor.tag = "a" ∧ textContent dCookie [0] = "cookies" ∧
      consentMarkedCurrent dCookie = [[0]] := by
  refine ⟨rfl, by decide, by decide⟩

/-- C2 (amended): the settings/preferences/policy-link exclusion the
claim describes lives in the legacy detector (the file matching
`dist/highlighting/elementDetector.js`): there, an anchor whose text
contains "cookie" but none of the consent action verbs, and which was not
already marked, is rejected by the consent filter. -/
theorem c2_legacy_cookie_link_excluded (d : Doc) (e : FElem)
    (htag : e.tag = "a")
    (hcookie : strContains (lc (textContent d e.path)) "cookie" = true)
    (hnoact : ∀ pat ∈ consentActionPatternsLegacy,
        strContains (lc (textContent d e.path)) pat = false)
    (hmark : (classTokens e).contains "consent-button-detected" = false) :
    isConsentButtonLegacy d e = false := by
  unfold isConsentButtonLegacy
  by_cases h0 : (e.width == 0 || e.height == 0) = true
  · rw [if_pos h0]
  · rw [if_neg h0]
    have hdiv : ((e.tag == "div" || e.tag == "span") && e.childNodesCount == 1
        && e.firstChildIsText
        && (match parentElem d e.path with
            | some pe => pe.tag == "button" || pe.role == some "button"
            | none => false)) = false := by
      rw [htag]
      rfl
    rw [if_neg (by simp [hdiv])]
    have hm2 : ¬ ((classTokens e).contains "consent-button-detected" = true) := by
      rw [hmark]
      exact Bool.false_ne_true
    rw [if_neg hm2]
    have hact : consentActionPatternsLegacy.any
        (fun pat => strContains (lc (textContent d e.path)) pat) = false := by
      rw [List.any_eq_false]
      intro pat hpat
      simp [hnoact pat hpat]
    have hlink : ((settingsWordsLegacy.any
          (fun w => strContains (lc (textContent d e.path)) w)
        || (strContains (lc (textContent d e.path)) "cookie"
            && !consentActionPatternsLegacy.any
              (fun pat => strContains (lc (textContent d e.path)) pat)))
        && (e.tag == "a")) = true := by
      rw [hact, hcookie, htag]
      simp
    rw [if_pos hlink]

/-- C2 (witness): the legacy filter rejects the bare-"cookies" anchor. -/
theorem c2_legacy_cookie_link_excluded_witness :
    (cookieAnchor.tag = "a" ∧
        strContains (lc (textContent dCookie [0])) "cookie" = true ∧
        (classTokens cookieAnchor).contains "consent-button-detected" = false) ∧
      isConsentButtonLegacy dCookie cookieAnchor = false :=
  ⟨⟨rfl, by decide, by decide⟩,
    c2_legacy_cookie_link_excluded dCookie cookieAnchor rfl (by decide)
      (by decide) (by decide)⟩

/-! ## Claims about the collection side effect -/

/-- C9 (counterexample): `collectElementData` is not form-searching on
every call: with an empty registry it returns early, even though the
document holds an eligible, unregistered form input — nothing is
registered and the state is unchanged. -/
theorem c9_empty_registry_counterexample :
    (findFormElements dLoneInput emptyHState).length = 1 ∧
      collectElementDataE dLoneInput emptyHState = Except.ok ([], emptyHState) := by
  exact ⟨by decide, rfl⟩

/-- C9 (amended): whenever the registry is non-empty, `collectElementData`
registers every eligible form control (in the document, unregistered, no
registered ancestor, no form-control ancestor) as a side effect, and that
control is absent from the snapshot being produced but present in the
next one. -/
theorem c9_collect_registers_forms (d : Doc) (s : HState) (f : FElem)
    (hne : s.highlighted ≠ [])
    (hinv : ∀ en ∈ s.highlighted, en.1 ∈ s.processed)
    (hf : f ∈ formRaw d)
    (hwf : findElem d f.path = some f)
    (hfp : f.path ∉ s.processed)
    (hanc1 : ∀ q ∈ s.processed, pathAbove q f.path = false)
    (hanc2 : ∀ g ∈ formRaw d, pathAbove g.path f.path = false) :
    f.path ∉ collectEntries d s ∧
      f.path ∈ (collectState d s).processed ∧
      f.path ∈ (collectState d s).highlighted.map Prod.fst ∧
      f.path ∈ collectEntries d (collectState d s) := by
  have hnemp : s.highlighted.isEmpty = false := by
    cases hl : s.highlighted with
    | nil => exact absurd hl hne
    | cons a t => rfl
  have hform : f ∈ findFormElements d s := by
    unfold findFormElements
    refine List.mem_filter.mpr ⟨hf, ?_⟩
    have h2 : (s.processed.any (fun q => pathAbove q f.path)) = false := by
      rw [List.any_eq_false]
      intro q hq
      simp [hanc1 q hq]
    simp [hfp, h2]
  have hformpath : f.path ∈ (findFormElements d s).map (fun e => e.path) :=
    List.mem_map_of_mem _ hform
  have hcs : collectState d s = registerForms d s := by
    unfold collectState
    rw [if_neg (by simp [hnemp])]
  refine ⟨?_, ?_, ?_, ?_⟩
  · intro hmem
    unfold collectEntries at hmem
    rw [if_neg (by simp [hnemp])] at hmem
    have hin := filterDuplicate_subset _ _ _ hmem
    obtain ⟨en, hen, heq⟩ := List.mem_map.mp hin
    exact hfp (heq ▸ hinv en hen)
  · rw [hcs]
    unfold registerForms
    exact passGo_covers _ _ _ _ hformpath
  · rw [hcs]
    unfold registerForms
    exact passGo_pushes _ _ _ _ hformpath hfp
  · rw [hcs]
    have hmem2 : f.path ∈ (registerForms d s).highlighted.map Prod.fst := by
      unfold registerForms
      exact passGo_pushes _ _ _ _ hformpath hfp
    have hne2 : (registerForms d s).highlighted.isEmpty = false := by
      cases hl : (registerForms d s).highlighted with
      | nil => rw [hl] at hmem2; simp at hmem2
      | cons a t => rfl
    unfold collectEntries
    rw [if_neg (by simp [hne2])]
    unfold filterDuplicateElements
    refine List.mem_filter.mpr ⟨hmem2, ?_⟩
    simp only [decide_eq_true_eq]
    intro hskip
    rcases mem_skipPass_elim d _ f.path hskip with htc | ⟨e, he, hab⟩
    · have hnot := formRaw_not_textContainer d f hf hwf
      rw [hnot] at htc
      exact Bool.false_ne_true htc
    · have hsrc : e ∈ s.highlighted.map Prod.fst ∨
          e ∈ (findFormElements d s).map (fun g => g.path) := by
        apply passGo_highlighted_source
        exact he
      rcases hsrc with h | h
      · obtain ⟨en, hen, heq⟩ := List.mem_map.mp h
        have hep : e ∈ s.processed := heq ▸ hinv en hen
        have hfalse := hanc1 e hep
        rw [hfalse] at hab
        exact Bool.false_ne_true hab
      · obtain ⟨g, hg, hgp⟩ := List.mem_map.mp h
        have hgform : g ∈ formRaw d := (List.mem_filter.mp hg).1
        have hfalse := hanc2 g hgform
        rw [hgp] at hfalse
        rw [hfalse] at hab
        exact Bool.false_ne_true hab

/-- C9 (witness): with a registered button present, the unregistered text
input is registered by the collection pass and appears only in the next
snapshot. -/
theorem c9_collect_registers_forms_witness :
    (sBtnInput.highlighted ≠ [] ∧ inputNine ∈ formRaw dBtnInput ∧
        inputNine.path ∉ sBtnInput.processed) ∧
      (inputNine.path ∉ collectEntries dBtnInput sBtnInput ∧
        inputNine.path ∈ (collectState dBtnInput sBtnInput).processed ∧
        inputNine.path ∈ (collectState dBtnInput sBtnInput).highlighted.map Prod.fst ∧
        inputNine.path ∈ collectEntries dBtnInput (collectState dBtnInput sBtnInput)) :=
  ⟨⟨by decide, by decide, by decide⟩,
    c9_collect_registers_forms dBtnInput sBtnInput inputNine (by decide) (by decide)
      (by decide) (by decide) (by decide) (by decide) (by decide)⟩

end RabbitBrowser
